import Mathlib

set_option maxRecDepth 8192

/-!
Verification development for the code-quality analysis engine of the
t3kd3t repository.

The analysis engine lives in `lib/codeAnalysis.ts` (`analyzeCode`,
`getAllFiles`, `calculateBasicComplexity`, `calculateBasicMaintainability`,
`calculateOverallScore`) and in `app/api/analyze/route.ts`
(`calculateOverallScore`, `getHealthStatus`, `generateRecommendations`).
This file gives a shallow embedding of those functions and proves or
refutes the frozen claims about them.

Modelling decisions:
* JavaScript numbers are embedded as `ℚ` (all the arithmetic the engine
  performs is exact on the rationals involved); `Math.round` is embedded
  as `jsRound x = ⌊x + 1/2⌋`, which is the JS round-half-up rule.
* A directory listing is an `FSTree`: a finite sequence of entries in the
  order `readdirSync` reports them, each entry being a file (with the
  content `readFileSync` would return, `none` when reading/decoding the
  file fails) or a subdirectory.  The root is an `Option FSTree`,
  `none` standing for a path that does not exist (where `readdirSync`
  throws).
* The regular expressions used by the metric functions
  (`/if\s*\(/g`, `/for\s*\(/g`, `/while\s*\(/g`, `/switch\s*\(/g`,
  `/\/\//g`, `/\/\*[\s\S]*?\*\//g`, `/function\s+\w+\s*\(/g`)
  are embedded as character-list scanners counting non-overlapping
  leftmost matches, exactly as `String.prototype.match` with the `g`
  flag does.  All the character classes involved (`\s`, `\w`, literal
  characters) are pairwise disjoint, so greedy maximal-munch scanning
  coincides with the backtracking regex semantics.
-/

/-- JavaScript `\s` character class (ECMA-262 WhiteSpace ∪ LineTerminator). -/
def isJsSpace (c : Char) : Bool :=
  c = ' ' || c = '\t' || c = '\n' || c = '\x0b' || c = '\x0c' || c = '\r' ||
  c.toNat = 0xa0 || c.toNat = 0x1680 ||
  (0x2000 ≤ c.toNat && c.toNat ≤ 0x200a) ||
  c.toNat = 0x2028 || c.toNat = 0x2029 || c.toNat = 0x202f ||
  c.toNat = 0x205f || c.toNat = 0x3000 || c.toNat = 0xfeff

/-- JavaScript `\w` character class: `[A-Za-z0-9_]`. -/
def isWordChar (c : Char) : Bool :=
  c.isAlphanum || c = '_'

/-- Skip the `\s*` part and then require a literal `(`; returns the rest of
the input after the `(` when the tail matches `\s*\(`. -/
def skipWsParen : List Char → Option (List Char)
  | [] => none
  | c :: rest =>
    if isJsSpace c then skipWsParen rest
    else if c = '(' then some rest else none

/-- Matcher for `kw\s*\(` anchored at the head of the input: on success
returns the suffix after the whole match. -/
def matchKwParen (kw : String) (cs : List Char) : Option (List Char) :=
  if kw.data.isPrefixOf cs then skipWsParen (cs.drop kw.length) else none

/-- Count non-overlapping leftmost matches of `tryMatch` over the input,
as `String.prototype.match(/…/g).length` does: on a match the scan resumes
after the match, otherwise it advances one character.  The fuel argument
is the length of the input; every step consumes at least one character, so
the fuel never runs out before the input does. -/
def countMatches (tryMatch : List Char → Option (List Char)) :
    Nat → List Char → Nat
  | 0, _ => 0
  | _ + 1, [] => 0
  | fuel + 1, c :: rest =>
    match tryMatch (c :: rest) with
    | some rem => 1 + countMatches tryMatch fuel rem
    | none => countMatches tryMatch fuel rest

/-- `(content.match(/kw\s*\(/g) || []).length`. -/
def countKwParen (kw : String) (content : String) : Nat :=
  countMatches (matchKwParen kw) content.length content.data

/-- Matcher for the literal `//` anchored at the head of the input. -/
def matchLineComment (cs : List Char) : Option (List Char) :=
  if "//".data.isPrefixOf cs then some (cs.drop 2) else none

/-- Scan to just after the next `*/`; `none` when the comment is unclosed.
This is the lazy `[\s\S]*?\*\/` part of the block-comment regex. -/
def afterBlockClose : List Char → Option (List Char)
  | '*' :: '/' :: rest => some rest
  | _ :: rest => afterBlockClose rest
  | [] => none

/-- Matcher for `\/\*[\s\S]*?\*\//` anchored at the head of the input. -/
def matchBlockComment (cs : List Char) : Option (List Char) :=
  if "/*".data.isPrefixOf cs then afterBlockClose (cs.drop 2) else none

/-- Skip `\s*`. -/
def skipWsMany : List Char → List Char
  | [] => []
  | c :: rest => if isJsSpace c then skipWsMany rest else c :: rest

/-- Skip `\w*`. -/
def skipWordMany : List Char → List Char
  | [] => []
  | c :: rest => if isWordChar c then skipWordMany rest else c :: rest

/-- Matcher for `function\s+\w+\s*\(` anchored at the head of the input. -/
def matchFunctionDecl (cs : List Char) : Option (List Char) :=
  if "function".data.isPrefixOf cs then
    match cs.drop 8 with
    | [] => none
    | c :: rest =>
      if isJsSpace c then
        match skipWsMany rest with
        | [] => none
        | d :: rest2 =>
          if isWordChar d then
            match skipWsMany (skipWordMany rest2) with
            | '(' :: rest3 => some rest3
            | _ => none
          else none
      else none
  else none

/-- `(content.match(/\/\//g) || []).length`. -/
def countLineComments (content : String) : Nat :=
  countMatches matchLineComment content.length content.data

/-- `(content.match(/\/\*[\s\S]*?\*\//g) || []).length`. -/
def countBlockComments (content : String) : Nat :=
  countMatches matchBlockComment content.length content.data

/-- `(content.match(/function\s+\w+\s*\(/g) || []).length`. -/
def countFunctionDecls (content : String) : Nat :=
  countMatches matchFunctionDecl content.length content.data

/-- `content.split('\n').length`: one more than the number of newline
characters, hence at least 1 for every string (the empty string splits
into one empty line). -/
def lineCount (content : String) : Nat :=
  content.data.count '\n' + 1

/-- `Math.round`: JS rounds half-up (towards +∞), i.e. `⌊x + 1/2⌋`. -/
def jsRound (x : ℚ) : ℚ :=
  ((⌊x + 1 / 2⌋ : ℤ) : ℚ)

namespace CodeAnalysis

/-- `calculateBasicComplexity` from `lib/codeAnalysis.ts`:
`1 + ifCount + forCount + whileCount + switchCount`, normalized by the
line count and capped at 100. -/
def calculateBasicComplexity (content : String) : ℚ :=
  let lineCnt := lineCount content
  let ifCount := countKwParen "if" content
  let forCount := countKwParen "for" content
  let whileCount := countKwParen "while" content
  let switchCount := countKwParen "switch" content
  let complexity : ℚ := 1 + ifCount + forCount + whileCount + switchCount
  min 100 ((complexity / lineCnt) * 100)

/-- `calculateBasicMaintainability` from `lib/codeAnalysis.ts`:
`(commentCount + functionCount) / lines.length`, scaled to 100 and capped. -/
def calculateBasicMaintainability (content : String) : ℚ :=
  let lineCnt := lineCount content
  let commentCount := countLineComments content + countBlockComments content
  let functionCount := countFunctionDecls content
  let mRatio : ℚ := ((commentCount + functionCount : ℕ) : ℚ) / lineCnt
  min 100 (mRatio * 100)

/-- `calculateOverallScore` from `lib/codeAnalysis.ts`: mean of the given
scores rounded to the nearest integer, 0 for an empty list. -/
def calculateOverallScore (scores : List ℚ) : ℚ :=
  if scores.length = 0 then 0
  else jsRound (scores.foldl (fun a b => a + b) 0 / (scores.length : ℚ))

end CodeAnalysis

/-- Sum of the four branch-construct counts of
`calculateBasicComplexity` (the quantity the spec calls the
branch-construct count of a file). -/
def branchCount (content : String) : Nat :=
  countKwParen "if" content + countKwParen "for" content +
    countKwParen "while" content + countKwParen "switch" content

/-! ## Filesystem model and file discovery -/

/-- A directory listing in the order `readdirSync` reports its entries.
`consFile name content rest`: a regular file; `content` is what
`readFileSync` would return for it (`none` when the read/decode fails).
`consDir name children rest`: a subdirectory with its own listing. -/
inductive FSTree where
  | nilEntries : FSTree
  | consFile (name : String) (content : Option String) (rest : FSTree) : FSTree
  | consDir (name : String) (children : FSTree) (rest : FSTree) : FSTree
deriving DecidableEq, Repr

/-- Node `path.extname`: the suffix of the name from its last `.`,
empty when there is no dot or the only dot is the leading character
(hidden files such as `.gitignore` have no extension). -/
def extnameAux : List Char → Option (List Char)
  | [] => none
  | c :: rest =>
    match extnameAux rest with
    | some e => some e
    | none => if c = '.' then some ('.' :: rest) else none

/-- Node `path.extname` on a bare entry name (no separators). -/
def extname (name : String) : String :=
  match name.data with
  | [] => ""
  | _ :: rest =>
    match extnameAux rest with
    | some e => ⟨e⟩
    | none => ""

/-- Node `path.join(dir, name)` for a directory path without a trailing
separator and a bare entry name. -/
def joinPath (dir name : String) : String :=
  if dir = "" then name else dir ++ "/" ++ name

/-- The recognized extension set passed to `getAllFiles` by `analyzeCode`. -/
def sourceExtensions : List String :=
  [".ts", ".tsx", ".js", ".jsx"]

/-- The loop body of `getAllFiles` from `lib/codeAnalysis.ts`: walk the
listing in `readdirSync` order; recurse into subdirectories whose name
does not start with `.` (hidden directories are pruned entirely); collect
every file whose `extname` is in the extension list.  Each discovered
path is paired with the content `readFileSync` would return for it. -/
def CodeAnalysis.getAllFilesT (dir : String) (exts : List String) :
    FSTree → List (String × Option String)
  | .nilEntries => []
  | .consFile name content rest =>
    (if exts.contains (extname name) then [(joinPath dir name, content)] else [])
      ++ CodeAnalysis.getAllFilesT dir exts rest
  | .consDir name children rest =>
    (if name.startsWith "." then []
     else CodeAnalysis.getAllFilesT (joinPath dir name) exts children)
      ++ CodeAnalysis.getAllFilesT dir exts rest

/-- `getAllFiles(dir, extensions)` from `lib/codeAnalysis.ts`.  When the
directory does not exist `readdirSync` throws; the surrounding
`try/catch` logs the error and the function returns the (empty) `files`
accumulator. -/
def CodeAnalysis.getAllFiles (dir : String) (exts : List String) :
    Option FSTree → List (String × Option String)
  | none => []
  | some t => CodeAnalysis.getAllFilesT dir exts t

/-- JS `s.replace(pat, '')` with a string pattern: remove the first
occurrence of `pat` from `s` (the string unchanged when `pat` does not
occur; removing the empty pattern is the identity). -/
def jsReplaceFirstAux (pat : List Char) : List Char → Option (List Char)
  | [] => if pat.isEmpty then some [] else none
  | c :: rest =>
    if pat.isPrefixOf (c :: rest) then some ((c :: rest).drop pat.length)
    else (jsReplaceFirstAux pat rest).map (c :: ·)

/-- JS `s.replace(pat, '')` with a string pattern (first occurrence only). -/
def jsReplaceFirst (s pat : String) : String :=
  match jsReplaceFirstAux pat.data s.data with
  | some r => ⟨r⟩
  | none => s

/-! ## The analysis entry point -/

/-- One element of the `fileAnalyses` array built inside `analyzeCode`. -/
structure FileAnalysis where
  file : String
  complexity : ℚ
  maintainability : ℚ
  lines : Nat
deriving DecidableEq, Repr

/-- One element of `complexity.details`. -/
structure ComplexityDetail where
  file : String
  complexity : ℚ
  maintainability : ℚ
deriving DecidableEq, Repr

/-- One element of `duplication.instances`. -/
structure DuplicationInstance where
  files : List String
  lines : Nat
  fragment : String
deriving DecidableEq, Repr

/-- One element of `maintainability.details`. -/
structure MaintainabilityDetail where
  file : String
  score : ℚ
  issues : List String
deriving DecidableEq, Repr

/-- The `complexity` component of `AnalysisResult`. -/
structure ComplexitySummary where
  score : ℚ
  details : List ComplexityDetail
deriving DecidableEq, Repr

/-- The `duplication` component of `AnalysisResult`. -/
structure DuplicationSummary where
  percentage : ℚ
  instances : List DuplicationInstance
deriving DecidableEq, Repr

/-- The `maintainability` component of `AnalysisResult`. -/
structure MaintainabilitySummary where
  score : ℚ
  details : List MaintainabilityDetail
deriving DecidableEq, Repr

/-- The `AnalysisResult` type of `lib/codeAnalysis.ts`.  Note it has
exactly the three components `complexity`, `duplication`,
`maintainability`: the type (and the value `analyzeCode` builds) has no
`overview` component. -/
structure AnalysisResult where
  complexity : ComplexitySummary
  duplication : DuplicationSummary
  maintainability : MaintainabilitySummary
deriving DecidableEq, Repr

namespace CodeAnalysis

/-- The per-file record built inside `analyzeCode`'s `files.map` callback. -/
def analyzeFile (projectPath p content : String) : FileAnalysis :=
  { file := jsReplaceFirst p projectPath
    complexity := calculateBasicComplexity content
    maintainability := calculateBasicMaintainability content
    lines := lineCount content }

/-- The `files.map(file => { const content = readFileSync(file); … })`
loop of `analyzeCode`: files are processed left to right and the first
failing `readFileSync` throws, aborting the whole map. -/
def readFiles (projectPath : String) :
    List (String × Option String) → Except String (List FileAnalysis)
  | [] => .ok []
  | (p, none) :: _ => .error ("unreadable file: " ++ p)
  | (p, some content) :: rest =>
    match readFiles projectPath rest with
    | .ok l => .ok (analyzeFile projectPath p content :: l)
    | .error e => .error e

/-- `analyzeCode(projectPath)` from `lib/codeAnalysis.ts`.  The outer
`try/catch` logs a failure and rethrows it unchanged, so an error from
any `readFileSync` call propagates to the caller; on success the result
always carries `duplication = { percentage: 0, instances: [] }`. -/
def analyzeCode (projectPath : String) (root : Option FSTree) :
    Except String AnalysisResult :=
  let files := CodeAnalysis.getAllFiles projectPath sourceExtensions root
  match CodeAnalysis.readFiles projectPath files with
  | .error e => .error e
  | .ok fileAnalyses =>
    let complexityScore :=
      calculateOverallScore (fileAnalyses.map (fun f => f.complexity))
    let maintainabilityScore :=
      calculateOverallScore (fileAnalyses.map (fun f => f.maintainability))
    .ok
      { complexity :=
          { score := complexityScore
            details := fileAnalyses.map (fun f =>
              { file := f.file
                complexity := f.complexity
                maintainability := f.maintainability }) }
        duplication := { percentage := 0, instances := [] }
        maintainability :=
          { score := maintainabilityScore
            details := fileAnalyses.map (fun f =>
              { file := f.file, score := f.maintainability, issues := [] }) } }

end CodeAnalysis

/-! ## The aggregation functions of `app/api/analyze/route.ts` -/

namespace Route

/-- `calculateOverallScore` from `app/api/analyze/route.ts`: the weighted
combination `round(c*0.3 + m*0.4 + (100 - d)*0.3)` of the three
sub-scores (`weights = {complexity: 0.3, maintainability: 0.4,
duplication: 0.3}`, duplication inverted). -/
def calculateOverallScore (results : AnalysisResult) : ℚ :=
  let complexityWeight : ℚ := 3 / 10
  let maintainabilityWeight : ℚ := 4 / 10
  let duplicationWeight : ℚ := 3 / 10
  let complexityScore := results.complexity.score
  let maintainabilityScore := results.maintainability.score
  let duplicationScore := 100 - results.duplication.percentage
  jsRound (complexityScore * complexityWeight +
    maintainabilityScore * maintainabilityWeight +
    duplicationScore * duplicationWeight)

/-- `getHealthStatus` from `app/api/analyze/route.ts`. -/
def getHealthStatus (score : ℚ) : String :=
  if score ≥ 80 then "Excellent"
  else if score ≥ 70 then "Good"
  else if score ≥ 50 then "Fair"
  else "Needs Improvement"

/-- `generateRecommendations` from `app/api/analyze/route.ts`: the three
threshold rules followed by a file-specific recommendation for up to the
first three maintainability details that carry at least one issue
(JS `detail.issues[0]` is `undefined` on an empty array, which a template
literal renders as the string `undefined`). -/
def generateRecommendations (results : AnalysisResult) : List String :=
  (if results.complexity.score > 70 then
    ["Consider breaking down complex functions into smaller, more manageable pieces"]
   else []) ++
  (if results.maintainability.score < 65 then
    ["Focus on improving code maintainability through better documentation and simpler code structures"]
   else []) ++
  (if results.duplication.percentage > 15 then
    ["Reduce code duplication by extracting common functionality into shared components or utilities"]
   else []) ++
  ((results.maintainability.details.filter (fun d => d.issues.length > 0)).take 3).map
    (fun d => "Improve maintainability in " ++ d.file ++ ": " ++ d.issues.headD "undefined")

/-- The first three (project-level threshold) rules of
`generateRecommendations` on their own, used to compare against the full
output. -/
def thresholdRecommendations (results : AnalysisResult) : List String :=
  (if results.complexity.score > 70 then
    ["Consider breaking down complex functions into smaller, more manageable pieces"]
   else []) ++
  (if results.maintainability.score < 65 then
    ["Focus on improving code maintainability through better documentation and simpler code structures"]
   else []) ++
  (if results.duplication.percentage > 15 then
    ["Reduce code duplication by extracting common functionality into shared components or utilities"]
   else [])

end Route

/-! ## Concrete example projects used by the claim theorems

`Rat.mul`, `Rat.add`, `Rat.sub`, `Rat.inv` and `Rat.ofScientific` are
`@[irreducible]` in Batteries solely to keep them from unfolding during
ordinary elaboration; making them semireducible again lets concrete runs
of the engine be evaluated by `rfl`/`decide` (the kernel ignores
reducibility attributes either way). -/

attribute [local semireducible] Rat.mul Rat.add Rat.sub Rat.inv Rat.ofScientific

/-- A function body of four code lines, duplicated verbatim across the two
files of `dupTree`. -/
def dupBody : String :=
  "  const a = 1;\n  const b = 2;\n  const c = a + b;\n  return c;\n"

/-- First file of the duplication example: `dupBody` wrapped in a function. -/
def dupFileOne : String :=
  "function helperOne(x) \x7b\n" ++ dupBody ++ "\x7d\n"

/-- Second file of the duplication example: the same body, the function
renamed. -/
def dupFileTwo : String :=
  "function helperTwo(x) \x7b\n" ++ dupBody ++ "\x7d\n"

/-- A two-file project whose files share the exact four-line body
`dupBody`. -/
def dupTree : FSTree :=
  .consFile "a.ts" (some dupFileOne) (.consFile "b.ts" (some dupFileTwo) .nilEntries)

/-- A directory containing a single file with no recognized source
extension, i.e. a project with zero eligible files. -/
def readmeTree : FSTree :=
  .consFile "README.md" (some "readme text") .nilEntries

/-- The `AnalysisResult` produced for a run that discovered no files. -/
def emptyResult : AnalysisResult :=
  ⟨⟨0, []⟩, ⟨0, []⟩, ⟨0, []⟩⟩

/-- A single-file project used to exhibit the exact shape of a successful
`analyzeCode` result. -/
def smallTree : FSTree :=
  .consFile "a.ts" (some "let x = 1;\nlet y = 2;\n") .nilEntries

/-- A two-file project in which the second file cannot be read. -/
def mixedTree : FSTree :=
  .consFile "a.ts" (some "const x = 1;\n") (.consFile "b.ts" none .nilEntries)

/-- A directory whose `readdirSync` order lists `b.ts` before `a.ts`,
i.e. not in lexicographic order. -/
def unsortedTree : FSTree :=
  .consFile "b.ts" (some "x\n") (.consFile "a.ts" (some "y\n") .nilEntries)

/-- The full result of `analyzeCode "/p" (some unsortedTree)`. -/
def unsortedResult : AnalysisResult :=
  ⟨⟨50, [⟨"/b.ts", 50, 0⟩, ⟨"/a.ts", 50, 0⟩]⟩, ⟨0, []⟩,
   ⟨0, [⟨"/b.ts", 0, []⟩, ⟨"/a.ts", 0, []⟩]⟩⟩

/-- A single-file project whose file carries one line comment. -/
def noteTree : FSTree :=
  .consFile "m.ts" (some "// note\n") .nilEntries

/-- The full result of `analyzeCode "/p" (some noteTree)`. -/
def noteResult : AnalysisResult :=
  ⟨⟨50, [⟨"/m.ts", 50, 50⟩]⟩, ⟨0, []⟩, ⟨50, [⟨"/m.ts", 50, []⟩]⟩⟩

/-- A three-line file with a single `if (`: used to instantiate the
complexity-formula claim. -/
def c5Content : String :=
  "if (x) \x7b return 1; \x7d\nreturn 2;\n"

/-- A four-line file containing one branching construct. -/
def oneBranchContent : String :=
  "if (\n\n\n"

/-- The same line count as `oneBranchContent` with one more branching
construct. -/
def twoBranchContent : String :=
  "if (if (\n\n\n"

/-! ## Helper lemmas -/

/-- The branch counts of `calculateBasicComplexity` collected into
`branchCount`. -/
theorem calculateBasicComplexity_branch (content : String) :
    CodeAnalysis.calculateBasicComplexity content =
      min 100 ((1 + (branchCount content : ℚ)) / (lineCount content : ℚ) * 100) := by
  simp only [CodeAnalysis.calculateBasicComplexity, branchCount]
  push_cast
  ring_nf

/-- Every string has a positive line count: `split('\n')` never yields an
empty array. -/
theorem lineCount_pos (content : String) : 0 < lineCount content :=
  Nat.succ_pos _

/-- A successful `readFiles` pass visits the input files in order and
keeps, for each, the path with the `projectPath` prefix removed. -/
theorem readFiles_ok_map_file (p : String) :
    ∀ (l : List (String × Option String)) (as : List FileAnalysis),
      CodeAnalysis.readFiles p l = .ok as →
      as.map (fun f => f.file) = l.map (fun pc => jsReplaceFirst pc.1 p) := by
  intro l
  induction l with
  | nil =>
    intro as h
    simp only [CodeAnalysis.readFiles, Except.ok.injEq] at h
    subst h
    simp
  | cons pc rest ih =>
    intro as h
    obtain ⟨q, oc⟩ := pc
    cases oc with
    | none => simp [CodeAnalysis.readFiles] at h
    | some c =>
      simp only [CodeAnalysis.readFiles] at h
      cases hr : CodeAnalysis.readFiles p rest with
      | error e => rw [hr] at h; simp at h
      | ok l2 =>
        rw [hr] at h
        simp only [Except.ok.injEq] at h
        subst h
        simp [CodeAnalysis.analyzeFile, ih l2 hr]

/-- `readFiles` fails as soon as the list contains an unreadable file. -/
theorem readFiles_error_of_unreadable (p : String) :
    ∀ (l : List (String × Option String)), (∃ pc ∈ l, pc.2 = none) →
      ∃ e, CodeAnalysis.readFiles p l = .error e := by
  intro l
  induction l with
  | nil => rintro ⟨pc, hmem, _⟩; cases hmem
  | cons pc rest ih =>
    rintro ⟨qc, hmem, hq⟩
    obtain ⟨q, oc⟩ := pc
    cases oc with
    | none => exact ⟨"unreadable file: " ++ q, rfl⟩
    | some c =>
      rcases List.mem_cons.mp hmem with h1 | h2
      · rw [h1] at hq; cases hq
      · obtain ⟨e, he⟩ := ih ⟨qc, h2, hq⟩
        exact ⟨e, by simp only [CodeAnalysis.readFiles, he]⟩

/-- Shape of a successful `analyzeCode` run: there is a successful
`readFiles` pass from which both `details` arrays are built by direct
mapping (in particular every `issues` field is set to `[]`). -/
theorem analyzeCode_ok (projectPath : String) (root : Option FSTree)
    (r : AnalysisResult)
    (h : CodeAnalysis.analyzeCode projectPath root = .ok r) :
    ∃ as, CodeAnalysis.readFiles projectPath
        (CodeAnalysis.getAllFiles projectPath sourceExtensions root) = .ok as ∧
      r.complexity.details =
        as.map (fun f => ⟨f.file, f.complexity, f.maintainability⟩) ∧
      r.maintainability.details =
        as.map (fun f => ⟨f.file, f.maintainability, []⟩) := by
  simp only [CodeAnalysis.analyzeCode] at h
  cases hr : CodeAnalysis.readFiles projectPath
      (CodeAnalysis.getAllFiles projectPath sourceExtensions root) with
  | error e => rw [hr] at h; simp at h
  | ok as =>
    rw [hr] at h
    simp only [Except.ok.injEq] at h
    exact ⟨as, rfl, by rw [← h], by rw [← h]⟩

/-! ## Claim theorems -/

/-- C1: the claim (and the repository's own test suite,
`__tests__` part, `duplication.instances` expectations) requires a project
whose two files share an exact duplicate function body of at least four
lines to be reported as exactly one `DuplicationInstance` covering both
files, with `duplication.percentage > 0`.  The code hardcodes
`duplication = { percentage: 0, instances: [] }`.  On the concrete
two-file project `dupTree`, whose files verbatim share the four-line body
`dupBody`, the run succeeds with zero duplication instances and
percentage 0. -/
theorem C1_duplication_reported_empty :
    dupBody.data <:+: dupFileOne.data ∧
    dupBody.data <:+: dupFileTwo.data ∧
    dupBody.data.count '\n' = 4 ∧
    CodeAnalysis.analyzeCode "/p" (some dupTree) = .ok
      ⟨⟨14, [⟨"/a.ts", 100 / 7, 100 / 7⟩, ⟨"/b.ts", 100 / 7, 100 / 7⟩]⟩,
       ⟨0, []⟩,
       ⟨14, [⟨"/a.ts", 100 / 7, []⟩, ⟨"/b.ts", 100 / 7, []⟩]⟩⟩ :=
  ⟨by decide, by decide, by decide, rfl⟩

/-- C2: the claim (and the repository's own test suite, which expects
`analyzeCode` on an empty directory to reject) requires a missing root to
fail with `NotFoundError` and a root with zero eligible files to fail
with `EmptyProjectError`.  Instead `getAllFiles` swallows the
`readdirSync` error of a missing root, and `analyzeCode` returns a
complete `AnalysisResult` with empty details and zero scores in both
situations. -/
theorem C2_no_error_on_missing_or_empty_root :
    CodeAnalysis.analyzeCode "/p" none = .ok emptyResult ∧
    CodeAnalysis.analyzeCode "/p" (some readmeTree) = .ok emptyResult :=
  ⟨rfl, rfl⟩

/-- C3: the claim requires every successful result to carry an `overview`
record with `totalFiles`, `totalLines` and `technicalDebtRatio`.  The
`AnalysisResult` type of `lib/codeAnalysis.ts` has exactly the three
components `complexity`, `duplication` and `maintainability`, and nothing
in the engine computes `totalLines` or `technicalDebtRatio`.  The
concrete run below exhibits the complete result value for a one-file
project: each `details` array has one entry per discovered file and there
is no overview component. -/
theorem C3_result_has_no_overview :
    CodeAnalysis.analyzeCode "/p" (some smallTree) = .ok
      ⟨⟨33, [⟨"/a.ts", 100 / 3, 0⟩]⟩, ⟨0, []⟩, ⟨0, [⟨"/a.ts", 0, []⟩]⟩⟩ :=
  rfl

/-- C4 counterexample: on the two-file project `mixedTree` whose second
file is unreadable the claim demands that the run still succeed with that
file recorded as skipped; instead `analyzeCode` propagates the read error
and the whole run aborts with no `AnalysisResult`. -/
theorem C4_counterexample :
    CodeAnalysis.analyzeCode "/p" (some mixedTree) =
      .error "unreadable file: /p/b.ts" :=
  rfl

/-- C4 (amended): an error confined to reading a single file always
aborts the whole run — whenever any discovered file is unreadable,
`analyzeCode` returns the propagated error instead of an
`AnalysisResult`. -/
theorem C4_single_unreadable_file_aborts_run
    (projectPath : String) (root : Option FSTree)
    (h : ∃ pc ∈ CodeAnalysis.getAllFiles projectPath sourceExtensions root,
      pc.2 = none) :
    ∃ e, CodeAnalysis.analyzeCode projectPath root = .error e := by
  obtain ⟨e, he⟩ := readFiles_error_of_unreadable projectPath _ h
  exact ⟨e, by simp only [CodeAnalysis.analyzeCode, he]⟩

/-- C4 witness: the hypothesis of `C4_single_unreadable_file_aborts_run`
holds at the concrete project `mixedTree`. -/
theorem C4_witness :
    (∃ pc ∈ CodeAnalysis.getAllFiles "/p" sourceExtensions (some mixedTree),
      pc.2 = none) ∧
    ∃ e, CodeAnalysis.analyzeCode "/p" (some mixedTree) = .error e :=
  ⟨by decide,
   C4_single_unreadable_file_aborts_run "/p" (some mixedTree) (by decide)⟩

/-- C5: for every file text (every text has at least one line), the
per-file complexity value equals
`min(100, ((1 + ifCount + forCount + whileCount + switchCount) / lineCount) * 100)`,
each branching-construct count taken as an independent unit. -/
theorem C5_complexity_formula (content : String)
    (_h : 1 ≤ lineCount content) :
    CodeAnalysis.calculateBasicComplexity content =
      min 100 ((1 + (countKwParen "if" content : ℚ) +
        countKwParen "for" content + countKwParen "while" content +
        countKwParen "switch" content) / (lineCount content : ℚ) * 100) :=
  rfl

/-- C5 witness: the formula instantiated at the concrete three-line file
`c5Content`. -/
theorem C5_witness :
    1 ≤ lineCount c5Content ∧
    CodeAnalysis.calculateBasicComplexity c5Content =
      min 100 ((1 + (countKwParen "if" c5Content : ℚ) +
        countKwParen "for" c5Content + countKwParen "while" c5Content +
        countKwParen "switch" c5Content) / (lineCount c5Content : ℚ) * 100) :=
  ⟨by decide, C5_complexity_formula c5Content (by decide)⟩

/-- C6 counterexample: the claim says empty text yields complexity 0; the
code splits the empty string into one (empty) line and computes
`min(100, (1/1)*100) = 100`. -/
theorem C6_counterexample :
    CodeAnalysis.calculateBasicComplexity "" = 100 ∧
    CodeAnalysis.calculateBasicComplexity "" ≠ 0 :=
  ⟨by decide, by decide⟩

/-- C6 (amended): no text has zero lines — `split('\n')` yields at least
one element — so no division by zero can occur; on empty text the code
returns maintainability 0 but complexity 100 (the one empty line makes
the density `1/1`). -/
theorem C6_empty_text_metrics :
    CodeAnalysis.calculateBasicComplexity "" = 100 ∧
    CodeAnalysis.calculateBasicMaintainability "" = 0 ∧
    ∀ content : String, 0 < lineCount content :=
  ⟨by decide, by decide, fun content => lineCount_pos content⟩

/-- C7 counterexample: discovery keeps `readdirSync` order and never
sorts, so on `unsortedTree` (whose directory lists `b.ts` before `a.ts`)
the `details` arrays are ordered `"/b.ts", "/a.ts"` although
`"/a.ts"` precedes `"/b.ts"` lexicographically — the claim's
"discovery order is lexicographic by full relative path" fails. -/
theorem C7_counterexample :
    CodeAnalysis.analyzeCode "/p" (some unsortedTree) = .ok unsortedResult ∧
    unsortedResult.complexity.details.map (fun d => d.file) =
      ["/b.ts", "/a.ts"] ∧
    "/a.ts".data < "/b.ts".data :=
  ⟨rfl, rfl, by decide⟩

/-- C7 (amended): two runs on the same tree give the same result (the
embedded `analyzeCode` is a pure function of the tree), and both
`details` arrays follow the discovery order — the `readdirSync`
depth-first order of `getAllFiles`, which is not sorted
lexicographically. -/
theorem C7_details_follow_discovery_order
    (projectPath : String) (root : Option FSTree) (r : AnalysisResult)
    (h : CodeAnalysis.analyzeCode projectPath root = .ok r) :
    r.complexity.details.map (fun d => d.file) =
      (CodeAnalysis.getAllFiles projectPath sourceExtensions root).map
        (fun pc => jsReplaceFirst pc.1 projectPath) ∧
    r.maintainability.details.map (fun d => d.file) =
      (CodeAnalysis.getAllFiles projectPath sourceExtensions root).map
        (fun pc => jsReplaceFirst pc.1 projectPath) := by
  obtain ⟨as, hr, hc, hm⟩ := analyzeCode_ok projectPath root r h
  have hfile := readFiles_ok_map_file projectPath _ as hr
  constructor
  · rw [hc, List.map_map]
    exact hfile
  · rw [hm, List.map_map]
    exact hfile

/-- C7 witness: the hypothesis of `C7_details_follow_discovery_order`
holds at the concrete project `unsortedTree`. -/
theorem C7_witness :
    CodeAnalysis.analyzeCode "/p" (some unsortedTree) = .ok unsortedResult ∧
    (unsortedResult.complexity.details.map (fun d => d.file) =
      (CodeAnalysis.getAllFiles "/p" sourceExtensions (some unsortedTree)).map
        (fun pc => jsReplaceFirst pc.1 "/p") ∧
     unsortedResult.maintainability.details.map (fun d => d.file) =
      (CodeAnalysis.getAllFiles "/p" sourceExtensions (some unsortedTree)).map
        (fun pc => jsReplaceFirst pc.1 "/p")) :=
  ⟨rfl,
   C7_details_follow_discovery_order "/p" (some unsortedTree) unsortedResult rfl⟩

/-- C8: `calculateOverallScore` is exactly
`round(complexity.score * 0.3 + maintainability.score * 0.4 + (100 - duplication.percentage) * 0.3)`,
and the health label bands of `getHealthStatus` are
"Excellent" iff score ≥ 80, "Good" iff 70 ≤ score < 80,
"Fair" iff 50 ≤ score < 70, and "Needs Improvement" otherwise, each lower
bound inclusive. -/
theorem C8_overall_score_and_health_bands (r : AnalysisResult) (s : ℚ) :
    Route.calculateOverallScore r =
      jsRound (r.complexity.score * (3 / 10) +
        r.maintainability.score * (4 / 10) +
        (100 - r.duplication.percentage) * (3 / 10)) ∧
    (Route.getHealthStatus s = "Excellent" ↔ 80 ≤ s) ∧
    (Route.getHealthStatus s = "Good" ↔ 70 ≤ s ∧ s < 80) ∧
    (Route.getHealthStatus s = "Fair" ↔ 50 ≤ s ∧ s < 70) ∧
    (Route.getHealthStatus s = "Needs Improvement" ↔ s < 50) := by
  refine ⟨rfl, ?_, ?_, ?_, ?_⟩ <;>
    unfold Route.getHealthStatus <;>
    split_ifs with h1 h2 h3 <;>
    simp_all <;>
    first
      | linarith
      | (intro hgoal; linarith)

/-- C9: at a fixed line count, one additional branching construct
strictly increases the complexity value whenever the original value is
below the 100 cap. -/
theorem C9_complexity_strict_monotone (s t : String)
    (hl : lineCount t = lineCount s)
    (hb : branchCount t = branchCount s + 1)
    (hcap : CodeAnalysis.calculateBasicComplexity s < 100) :
    CodeAnalysis.calculateBasicComplexity s <
      CodeAnalysis.calculateBasicComplexity t := by
  have hs := calculateBasicComplexity_branch s
  have ht := calculateBasicComplexity_branch t
  rw [hl, hb] at ht
  push_cast at ht
  rw [hs] at hcap ⊢
  rw [ht]
  have hnpos : (0 : ℚ) < (lineCount s : ℚ) := by
    exact_mod_cast lineCount_pos s
  have hx : (1 + (branchCount s : ℚ)) / (lineCount s : ℚ) * 100 < 100 := by
    rcases min_lt_iff.mp hcap with h | h
    · exact absurd h (lt_irrefl _)
    · exact h
  have hxy : (1 + (branchCount s : ℚ)) / (lineCount s : ℚ) * 100 <
      (1 + ((branchCount s : ℚ) + 1)) / (lineCount s : ℚ) * 100 := by
    gcongr
    linarith
  calc min 100 ((1 + (branchCount s : ℚ)) / (lineCount s : ℚ) * 100)
      = (1 + (branchCount s : ℚ)) / (lineCount s : ℚ) * 100 :=
        min_eq_right hx.le
    _ < min 100 ((1 + ((branchCount s : ℚ) + 1)) / (lineCount s : ℚ) * 100) :=
        lt_min hx hxy

/-- C9 witness: the hypotheses of `C9_complexity_strict_monotone` hold at
the concrete pair `oneBranchContent`, `twoBranchContent` (both four
lines, one and two `if (` constructs). -/
theorem C9_witness :
    lineCount twoBranchContent = lineCount oneBranchContent ∧
    branchCount twoBranchContent = branchCount oneBranchContent + 1 ∧
    CodeAnalysis.calculateBasicComplexity oneBranchContent < 100 ∧
    CodeAnalysis.calculateBasicComplexity oneBranchContent <
      CodeAnalysis.calculateBasicComplexity twoBranchContent :=
  ⟨by decide, by decide, by decide,
   C9_complexity_strict_monotone oneBranchContent twoBranchContent
     (by decide) (by decide) (by decide)⟩

/-- C10: every `issues` list in `maintainability.details` of a successful
run is the empty list, so the file-specific rule of
`generateRecommendations` never fires: the output is exactly the three
project-level threshold rules. -/
theorem C10_issues_empty_no_file_recommendations
    (projectPath : String) (root : Option FSTree) (r : AnalysisResult)
    (h : CodeAnalysis.analyzeCode projectPath root = .ok r) :
    (∀ d ∈ r.maintainability.details, d.issues = []) ∧
    Route.generateRecommendations r = Route.thresholdRecommendations r := by
  obtain ⟨as, hr, hc, hm⟩ := analyzeCode_ok projectPath root r h
  have hiss : ∀ d ∈ r.maintainability.details, d.issues = [] := by
    rw [hm]
    rintro d hd
    obtain ⟨f, _, rfl⟩ := List.mem_map.mp hd
    rfl
  refine ⟨hiss, ?_⟩
  have hfil :
      r.maintainability.details.filter (fun d => d.issues.length > 0) = [] := by
    apply List.filter_eq_nil_iff.mpr
    intro d hd
    simp [hiss d hd]
  unfold Route.generateRecommendations Route.thresholdRecommendations
  rw [hfil]
  simp

/-- C10 witness: the hypothesis of
`C10_issues_empty_no_file_recommendations` holds at the concrete project
`noteTree`. -/
theorem C10_witness :
    CodeAnalysis.analyzeCode "/p" (some noteTree) = .ok noteResult ∧
    ((∀ d ∈ noteResult.maintainability.details, d.issues = []) ∧
     Route.generateRecommendations noteResult =
       Route.thresholdRecommendations noteResult) :=
  ⟨rfl,
   C10_issues_empty_no_file_recommendations "/p" (some noteTree) noteResult rfl⟩
